import Mathlib

/-!
Verification of the SD-card streaming-job controller of `src/drivers/ESP32/sdcard.c`
(grblHAL ESP32 driver).  The C module is embedded shallowly: the global mutable
state (`hal.stream`, the static `active_stream` save slot, the report hooks,
`sys.block_input_stream`, `sys.state` and the static `file_t file`) becomes an
explicit state record, function pointers become small inductive tag types, and
each C function becomes a Lean function from state to state (plus a returned
value and a list of emitted report events where the C writes output).
-/

namespace Sdcard

/-- Values that can occupy the `hal.stream.read` function-pointer slot.
`sdcardRead` is this module's `sdcard_read`; `ext n` is any other reader
(e.g. the serial console's), opaque to this module. -/
inductive ReadPtr
  | sdcardRead
  | ext (n : Nat)
deriving DecidableEq, Repr

/-- Values for the `hal.stream.suspend_read` slot; `sdcardSuspend` is `sdcard_suspend`. -/
inductive SuspendPtr
  | sdcardSuspend
  | ext (n : Nat)
deriving DecidableEq, Repr

/-- Values for the `hal.stream.reset_read_buffer` slot (always external to this module). -/
inductive ResetBufPtr
  | ext (n : Nat)
deriving DecidableEq, Repr

/-- Values for the `hal.stream.write` slot (always external to this module). -/
inductive WritePtr
  | ext (n : Nat)
deriving DecidableEq, Repr

/-- The `hal.stream.type` tag; `sdcardType` is `StreamSetting_SDCard`, `ext n` any other setting. -/
inductive StreamType
  | sdcardType
  | ext (n : Nat)
deriving DecidableEq, Repr

/-- Values for the `hal.report.status_message` hook slot.  `reportStatusMessage` is the
grbl core's default `report_status_message`, `trapStatusReport` this module's
`trap_status_report`, `ext n` any other hook. -/
inductive StatusPtr
  | reportStatusMessage
  | trapStatusReport
  | ext (n : Nat)
deriving DecidableEq, Repr

/-- Values for the `hal.report.feedback_message` hook slot. -/
inductive FeedbackPtr
  | reportFeedbackMessage
  | trapFeedbackMessage
  | ext (n : Nat)
deriving DecidableEq, Repr

/-- Values for the `hal.driver_rt_report` slot; `sdcardReport` is `sdcard_report`. -/
inductive RtReportPtr
  | sdcardReport
  | ext (n : Nat)
deriving DecidableEq, Repr

/-- The `io_stream_t` bundle of channel function pointers (the fields this module
saves, swaps and restores; unmodelled fields of the C struct never change and are
covered by the whole-struct `memcpy`). -/
structure IoStream where
  type : StreamType
  read : ReadPtr
  resetReadBuffer : ResetBufPtr
  suspendRead : SuspendPtr
  write : WritePtr
deriving DecidableEq, Repr

/-- `status_code_t`: the grbl status codes this module mentions by name, plus
`Status_other n` for any other interpreter status (numeric code `n`). -/
inductive StatusCode
  | Status_OK
  | Status_Unhandled
  | Status_SystemGClock
  | Status_SDMountError
  | Status_SDReadError
  | Status_SDFailedOpenDir
  | Status_InvalidStatement
  | Status_other (n : Nat)
deriving DecidableEq, Repr

export StatusCode (Status_OK Status_Unhandled Status_SystemGClock Status_SDMountError
  Status_SDReadError Status_SDFailedOpenDir Status_InvalidStatement)

/-- `message_code_t`: only `Message_ProgramEnd` is inspected by this module. -/
inductive MessageCode
  | Message_ProgramEnd
  | Message_other (n : Nat)
deriving DecidableEq, Repr

export MessageCode (Message_ProgramEnd)

/-- Report output emitted through `hal.stream.write` / the report hooks.  The C
formats text with `sprintf`; the formatted fields (status code, line number,
message code) are kept as structured data. -/
inductive Event
  | statusMsg (hook : StatusPtr) (code : StatusCode)
  | feedbackMsg (hook : FeedbackPtr) (msg : MessageCode)
  | errorAtLine (code : StatusCode) (line : Nat)
  | resetAtLine (line : Nat)
deriving DecidableEq, Repr

/-- `file_status_t` of `allowed`. -/
inductive file_status_t
  | Filename_Filtered
  | Filename_Valid
  | Filename_Invalid
deriving DecidableEq, Repr

/-- The static `file_t file`: mount flag (`fs`), the open `FIL` handle modelled as
the remaining unread byte stream (or `none` when closed), and the byte size,
read offset, line counter and end-of-line run length. -/
structure FileT where
  fs : Bool
  handle : Option (List Nat)
  size : Nat
  pos : Nat
  line : Nat
  eol : Nat
deriving DecidableEq, Repr

/-- The module-visible mutable state: `hal.stream`, the static save slot
`active_stream`, the report hooks, `hal.driver_rt_report`,
`sys.block_input_stream`, `sys.state` and the static `file`. -/
structure SdState where
  stream : IoStream
  savedStream : IoStream
  driverRtReport : Option RtReportPtr
  statusMessage : StatusPtr
  feedbackMessage : FeedbackPtr
  blockInputStream : Bool
  sysState : Nat
  file : FileT
deriving DecidableEq, Repr

/-- The storage/filesystem collaborator (fatfs), consumed through a narrow
capability: `fileData path` is the byte content `f_open`/`f_read` serve for
`path` (`none` = open fails), `lsOk` whether `scan_dir` on the root succeeds,
`mallocOk`/`mountOk` the outcomes of `malloc`/`f_mount` in `sdcard_mount`. -/
structure World where
  fileData : List Char → Option (List Nat)
  lsOk : Bool
  mallocOk : Bool
  mountOk : Bool

/-- Modelled from the spec: grbl core's `sys.state` bitmask (`grbl.h` is outside
`src/`).  `STATE_IDLE` is zero; cycle and hold are distinct nonzero bits. -/
def STATE_IDLE : Nat := 0

/-- Modelled from the spec: the cycle bit of `sys.state`. -/
def STATE_CYCLE : Nat := 8

/-- Modelled from the spec: the hold bit of `sys.state`. -/
def STATE_HOLD : Nat := 16

/-- Modelled from the spec: the reserved status-report real-time command byte of
the console protocol (defined in grbl core, outside `src/`). -/
def CMD_STATUS_REPORT : Char := '?'

/-- Modelled from the spec: the reserved cycle-start real-time command byte. -/
def CMD_CYCLE_START : Char := '~'

/-- Modelled from the spec: the reserved feed-hold real-time command byte. -/
def CMD_FEED_HOLD : Char := '!'

/-- The fixed admission list `filetypes[]` (the terminating `""` sentinel of the
C array is the list's end). -/
def filetypes : List (List Char) :=
  [['n','c'], ['g','c','o','d','e'], ['t','x','t'], ['t','e','x','t'], ['t','a','p'], ['n','g','c']]

/-- `LCAPS(c)`: lower-case an ASCII capital, leave any other byte unchanged. -/
def LCAPS (c : Char) : Char :=
  if 'A' ≤ c ∧ c ≤ 'Z' then Char.ofNat (c.toNat ||| 0x20) else c

/-- `strrchr(filename, '.')` followed by `ftptr++`: the suffix after the last
dot, or `none` when the name holds no dot. -/
def afterLastDot : List Char → Option (List Char)
  | [] => none
  | c :: rest =>
    match afterLastDot rest with
    | some s => some s
    | none => if c = '.' then some rest else none

/-- `allowed(filename, is_file)`: filename admission.  A regular file starts as
`Filename_Filtered` and is promoted to `Filename_Valid` when the (lower-cased)
extension after the last dot is in `filetypes` and no longer than 7 bytes; a
directory starts as `Filename_Valid`.  A `Filename_Valid` name containing a
space or one of the three reserved real-time bytes is demoted to
`Filename_Invalid`. -/
def allowed (filename : List Char) (isFile : Bool) : file_status_t :=
  let status : file_status_t :=
    if isFile then .Filename_Filtered else .Filename_Valid
  let status : file_status_t :=
    if isFile then
      match afterLastDot filename with
      | none => status
      | some ftptr =>
        if ftptr.length > 7 then status
        else if ftptr.map LCAPS ∈ filetypes then .Filename_Valid else status
    else status
  if status = .Filename_Valid then
    if ' ' ∈ filename ∨ CMD_STATUS_REPORT ∈ filename ∨
        CMD_CYCLE_START ∈ filename ∨ CMD_FEED_HOLD ∈ filename then
      .Filename_Invalid
    else status
  else status

/-- `file_close()`: release the handle if held. -/
def file_close (f : FileT) : FileT :=
  if f.handle.isSome then { f with handle := none } else f

/-- `file_open(filename)`: close any existing session, then ask the storage
collaborator for the file; on success record size and reset position, line
counter and end-of-line run. -/
def file_open (w : World) (f : FileT) (filename : List Char) : FileT :=
  let f := if f.handle.isSome then file_close f else f
  match w.fileData filename with
  | some content =>
    { f with handle := some content, size := content.length, pos := 0, line := 0, eol := 0 }
  | none => f

/-- The `signed char` value of a stored byte: bytes `128..255` read back
negative, so byte `0xFF` is indistinguishable from the `-1` end sentinel. -/
def byteToInt (b : Nat) : Int :=
  if b < 128 then (b : Int) else (b : Int) - 256

/-- `file_read()`: read one byte (advancing `pos` to `f_tell`), or `-1` on
end-of-file/read error; then update the end-of-line run length `eol`
(a `uint8_t`, hence the wrap at 256): incremented when the returned value is a
carriage-return or line-feed, reset to zero otherwise — also on the `-1` path. -/
def file_read (f : FileT) : FileT × Int :=
  let p :=
    match f.handle with
    | some (b :: rest) => ({ f with handle := some rest, pos := f.pos + 1 }, byteToInt b)
    | some [] => (f, -1)
    | none => (f, -1)
  let f := p.1
  let c := p.2
  let f :=
    if c = 13 ∨ c = 10 then { f with eol := (f.eol + 1) % 256 }
    else { f with eol := 0 }
  (f, c)

/-- `sdcard_end_job()`: close the file, restore `hal.stream` wholesale from the
save slot (`memcpy`), flush the input buffer (no modelled effect), clear
`hal.driver_rt_report`, point both report hooks back at the grbl defaults and
clear `sys.block_input_stream`. -/
def sdcard_end_job (s : SdState) : SdState :=
  { s with
    file := file_close s.file,
    stream := s.savedStream,
    driverRtReport := none,
    statusMessage := .reportStatusMessage,
    feedbackMessage := .reportFeedbackMessage,
    blockInputStream := false }

/-- `trap_status_report(status_code)`: on any non-OK status, write
`error:<code> in SD file at line <line>` and end the job; on OK do nothing. -/
def trap_status_report (s : SdState) (code : StatusCode) : SdState × List Event :=
  if code ≠ Status_OK then
    (sdcard_end_job s, [Event.errorAtLine code s.file.line])
  else (s, [])

/-- `trap_feedback_message(message_code)`: forward to the default
`report_feedback_message`, then end the job on `Message_ProgramEnd`. -/
def trap_feedback_message (s : SdState) (m : MessageCode) : SdState × List Event :=
  let evs := [Event.feedbackMsg .reportFeedbackMessage m]
  if m = Message_ProgramEnd then (sdcard_end_job s, evs) else (s, evs)

/-- `sdcard_read()`: bump the line counter when the previous byte completed
exactly one end-of-line byte (`eol == 1`); with an open handle, read a byte
only while the system is idle, cycling or holding; on the `-1` sentinel close
the session and synthesize one `'\n'` when `eol` is zero at that point; with
no open handle end the job once the system is idle. -/
def sdcard_read (s : SdState) : SdState × Int :=
  let f0 := if s.file.eol = 1 then { s.file with line := s.file.line + 1 } else s.file
  if f0.handle.isSome then
    let p :=
      if s.sysState = STATE_IDLE ∨ s.sysState &&& (STATE_CYCLE ||| STATE_HOLD) ≠ 0 then
        file_read f0
      else (f0, -1)
    if p.2 = -1 then
      let f2 := file_close p.1
      ({ s with file := f2 }, if f2.eol = 0 then 10 else -1)
    else ({ s with file := p.1 }, p.2)
  else if s.sysState = STATE_IDLE then
    (sdcard_end_job { s with file := f0 }, -1)
  else ({ s with file := f0 }, -1)

/-- `sdcard_report(stream_write)` writes `|SD:` and
`ftoa((float)file.pos / (float)file.size * 100.0f, 1)`.  The numeric value is
modelled exactly over `ℚ` (float rounding abstracted); the unguarded IEEE
division with a zero denominator (`0.0f/0.0f` is NaN) yields no meaningful
number and is modelled as `none`. -/
def floatDiv (a b : ℚ) : Option ℚ :=
  if b = 0 then none else some (a / b)

/-- The percent-complete figure `sdcard_report` formats. -/
def sdcard_report (s : SdState) : Option ℚ :=
  (floatDiv (s.file.pos : ℚ) (s.file.size : ℚ)).map (fun q => q * 100)

/-- `sdcard_suspend(suspend)`: clear `sys.block_input_stream` while suspended
(set it again on resume); on suspend flush the buffer (no modelled effect) and
restore the saved serial reader and the default status hook; on resume
reinstall `sdcard_read` and the trapping status hook. -/
def sdcard_suspend (s : SdState) (suspend : Bool) : SdState :=
  let s := { s with blockInputStream := !suspend }
  if suspend then
    { s with
      stream := { s.stream with read := s.savedStream.read },
      statusMessage := .reportStatusMessage }
  else
    { s with
      stream := { s.stream with read := .sdcardRead },
      statusMessage := .trapStatusReport }

/-- `sdcard_mount()`: allocate the `FATFS` work area once, mount, and free the
area again when mounting fails; returns whether a mounted area is held. -/
def sdcard_mount (w : World) (f : FileT) : FileT × Bool :=
  let f := if !f.fs then { f with fs := w.mallocOk } else f
  let f := if f.fs ∧ ¬w.mountOk then { f with fs := false } else f
  (f, f.fs)

/-- `sdcard_ls(buf)`: run `scan_dir` from the root.  The recursive directory
walk only reads the storage collaborator and writes listing records; its
success is the collaborator outcome `w.lsOk`.  It never touches the state this
development tracks. -/
def sdcard_ls (w : World) : StatusCode :=
  if w.lsOk then Status_OK else Status_SDFailedOpenDir

/-- Invoke whatever occupies the status-message hook slot, as the interpreter
does after executing a line: the trapping hook runs `trap_status_report`; any
other hook only formats output. -/
def dispatchStatus (s : SdState) (code : StatusCode) : SdState × List Event :=
  match s.statusMessage with
  | .trapStatusReport => trap_status_report s code
  | h => (s, [Event.statusMsg h code])

/-- Invoke whatever occupies the feedback-message hook slot. -/
def dispatchFeedback (s : SdState) (m : MessageCode) : SdState × List Event :=
  match s.feedbackMessage with
  | .trapFeedbackMessage => trap_feedback_message s m
  | h => (s, [Event.feedbackMsg h m])

/-- `sdcard_parse(state, line, lcline)`: the `$F` sub-command family.  `line[2]`
selects listing (`'\0'`), mounting (`'M'`) or open-and-run (`'='`, filename at
`&line[3]`); any other value is `Status_InvalidStatement`, a non-`F` second
byte `Status_Unhandled`.  The run branch: refuse with `Status_SystemGClock`
unless `state` is idle; open the file (`Status_SDReadError` on failure);
acknowledge OK through the still-active status hook; save `hal.stream` into
`active_stream`; then install the SD channel set, the trapping hooks, the
percent reporter and the console-input block.  (`lcline` is unused by the C.) -/
def sdcard_parse (w : World) (s : SdState) (line : List Char) :
    SdState × StatusCode × List Event :=
  if line.getD 1 '\x00' = 'F' then
    let c2 := line.getD 2 '\x00'
    if c2 = '\x00' then (s, sdcard_ls w, [])
    else if c2 = 'M' then
      let p := sdcard_mount w s.file
      ({ s with file := p.1 }, if p.2 then Status_OK else Status_SDMountError, [])
    else if c2 = '=' then
      if s.sysState ≠ STATE_IDLE then (s, Status_SystemGClock, [])
      else
        let f := file_open w s.file (line.drop 3)
        if f.handle.isSome then
          let q := dispatchStatus { s with file := f } Status_OK
          let s1 := q.1
          ({ s1 with
             savedStream := s1.stream,
             stream := { s1.stream with
                         type := .sdcardType, read := .sdcardRead,
                         suspendRead := .sdcardSuspend },
             driverRtReport := some .sdcardReport,
             statusMessage := .trapStatusReport,
             feedbackMessage := .trapFeedbackMessage,
             blockInputStream := true }, Status_OK, q.2)
        else ({ s with file := f }, Status_SDReadError, [])
    else (s, Status_InvalidStatement, [])
  else (s, Status_Unhandled, [])

/-- `sdcard_reset()`: when the SD stream set is installed, write
`[MSG:Reset during streaming of SD file at line: <line>]` and end the job;
otherwise do nothing. -/
def sdcard_reset (s : SdState) : SdState × List Event :=
  if s.stream.type = .sdcardType then
    (sdcard_end_job s, [Event.resetAtLine s.file.line])
  else (s, [])

/-!  ## Driving the module from its environment

While a job runs, the rest of the firmware only reaches this module through
the installed slots: the main loop calls `hal.stream.read()` per character,
the tool-change path calls `hal.stream.suspend_read(bool)`, the interpreter
calls the report hooks after each executed line, the reset path calls
`sdcard_reset()`, and motion control moves `sys.state`.  `MidOp` is one such
environment step, dispatched through whatever the slot currently holds. -/

/-- Invoke whatever occupies the `hal.stream.read` slot.  A reader other than
`sdcard_read` belongs to another channel and does not touch this module's
state. -/
def dispatchRead (s : SdState) : SdState × Int :=
  match s.stream.read with
  | .sdcardRead => sdcard_read s
  | .ext _ => (s, -1)

/-- Invoke whatever occupies the `hal.stream.suspend_read` slot. -/
def dispatchSuspend (s : SdState) (b : Bool) : SdState :=
  match s.stream.suspendRead with
  | .sdcardSuspend => sdcard_suspend s b
  | .ext _ => s

/-- One environment step against the module's installed surface. -/
inductive MidOp
  | readChar
  | suspend (b : Bool)
  | status (c : StatusCode)
  | feedback (m : MessageCode)
  | reset
  | setSys (n : Nat)
deriving DecidableEq, Repr

/-- Apply one environment step. -/
def applyOp (s : SdState) : MidOp → SdState
  | .readChar => (dispatchRead s).1
  | .suspend b => dispatchSuspend s b
  | .status c => (dispatchStatus s c).1
  | .feedback m => (dispatchFeedback s m).1
  | .reset => (sdcard_reset s).1
  | .setSys n => { s with sysState := n }

/-- Apply a sequence of environment steps. -/
def applyOps (s : SdState) (ops : List MidOp) : SdState :=
  ops.foldl applyOp s

/-- Iterate `sdcard_read` (the streaming main loop pulling characters). -/
def driveReads : Nat → SdState → SdState
  | 0, s => s
  | n + 1, s => driveReads n (sdcard_read s).1

/-- The line accounting `sdcard_read` performs first: bump the line counter
when the end-of-line run equals 1. -/
def lineBump (f : FileT) : FileT :=
  if f.eol = 1 then { f with line := f.line + 1 } else f

/-- The file state after a read that consumes byte `b`, leaving `rest`. -/
def consumeByte (f : FileT) (b : Nat) (rest : List Nat) : FileT :=
  { lineBump f with
    handle := some rest,
    pos := f.pos + 1,
    eol := if b = 13 ∨ b = 10 then (f.eol + 1) % 256 else 0 }

/-- The file state after the read that hits end-of-file: line accounting done,
run reset by the failed read, session closed. -/
def closeAtEof (f : FileT) : FileT :=
  { lineBump f with handle := none, eol := 0 }

/-- The SD channel set is installed (the condition `sdcard_reset` tests). -/
def jobActive (s : SdState) : Prop :=
  s.stream.type = .sdcardType

instance (s : SdState) : Decidable (jobActive s) :=
  inferInstanceAs (Decidable (s.stream.type = .sdcardType))

/-- An idle console configuration: none of this module's functions installed,
both report hooks at the grbl defaults (§3 of the spec: in `Idle`,
`ActiveChannelSet.kind == Console`). -/
def consoleState (s : SdState) : Prop :=
  s.stream.type ≠ .sdcardType ∧ s.stream.read ≠ .sdcardRead ∧
  s.stream.suspendRead ≠ .sdcardSuspend ∧
  s.statusMessage = .reportStatusMessage ∧ s.feedbackMessage = .reportFeedbackMessage

instance (s : SdState) : Decidable (consoleState s) := by
  unfold consoleState; infer_instance

/-- The job has ended and the channel set that was active before the run
command is active again: `hal.stream` equals the pre-job bundle, both report
hooks equal the pre-job (default) hooks, the console-input block is cleared
and the file handle released. -/
def restoredTo (s0 s : SdState) : Prop :=
  s.stream = s0.stream ∧ s.statusMessage = s0.statusMessage ∧
  s.feedbackMessage = s0.feedbackMessage ∧
  s.blockInputStream = false ∧ s.file.handle = none

instance (s0 s : SdState) : Decidable (restoredTo s0 s) := by
  unfold restoredTo; infer_instance

/-- A line body fit for streaming: nonempty, no terminator bytes, and no byte
`0xFF` (which a `signed char` read cannot distinguish from the end sentinel). -/
def goodLine (l : List Nat) : Prop :=
  l ≠ [] ∧ ∀ b ∈ l, b < 255 ∧ b ≠ 13 ∧ b ≠ 10

instance (l : List Nat) : Decidable (goodLine l) := by
  unfold goodLine; infer_instance

/-- A file of properly terminated lines: each line body followed by one
line-feed byte. -/
def mkFile : List (List Nat) → List Nat
  | [] => []
  | l :: ls => l ++ 10 :: mkFile ls

/-- The line-counting recurrence `sdcard_read`/`file_read` implement: at each
read, first bump the count when the end-of-line run equals 1, then update the
run from the byte read (`uint8_t` wrap included); the final end-of-file read
still performs the bump before the run is reset. -/
def lineCount : List Nat → Nat → Nat → Nat
  | [], e, acc => if e = 1 then acc + 1 else acc
  | b :: rest, e, acc =>
    lineCount rest (if b = 13 ∨ b = 10 then (e + 1) % 256 else 0)
      (if e = 1 then acc + 1 else acc)

/-- A concrete console channel set (all slots external to this module). -/
def consoleStream : IoStream :=
  { type := .ext 0, read := .ext 0, resetReadBuffer := .ext 0,
    suspendRead := .ext 0, write := .ext 0 }

/-- A storage collaborator serving `content` for every path. -/
def exampleWorld (content : List Nat) : World :=
  { fileData := fun _ => some content, lsOk := true, mallocOk := true, mountOk := true }

/-- A concrete idle state: console channel set active, default hooks, system
idle, mounted card, no open file. -/
def exampleIdle : SdState :=
  { stream := consoleStream, savedStream := consoleStream,
    driverRtReport := none,
    statusMessage := .reportStatusMessage, feedbackMessage := .reportFeedbackMessage,
    blockInputStream := false, sysState := STATE_IDLE,
    file := { fs := true, handle := none, size := 0, pos := 0, line := 0, eol := 0 } }

/-- The streaming state reached by dispatching a successful `$F=` run command
for a file with the given bytes from `exampleIdle`. -/
def exampleStream (content : List Nat) : SdState :=
  (sdcard_parse (exampleWorld content) exampleIdle ['$', 'F', '=', 'f']).1

/-- The state `sdcard_parse`'s run branch installs on a successful open: the
pre-run `hal.stream` saved in the slot, the SD channel set, trapping hooks,
percent reporter and console-input block installed, fresh file session. -/
def installedState (s : SdState) (content : List Nat) : SdState :=
  { s with
    savedStream := s.stream,
    stream := { s.stream with type := .sdcardType, read := .sdcardRead, suspendRead := .sdcardSuspend },
    driverRtReport := some .sdcardReport,
    statusMessage := .trapStatusReport,
    feedbackMessage := .trapFeedbackMessage,
    blockInputStream := true,
    file := { s.file with handle := some content, size := content.length, pos := 0, line := 0, eol := 0 } }

/-- Whether a candidate name carries an extension in the admission list
(after the last dot, compared case-insensitively). -/
def hasAdmissibleExt (name : List Char) : Bool :=
  match afterLastDot name with
  | none => false
  | some ext => decide (ext.map LCAPS ∈ filetypes)

/-- Whether a candidate name contains a space or one of the three reserved
real-time control bytes. -/
def hasBadChar (name : List Char) : Bool :=
  decide (' ' ∈ name ∨ CMD_STATUS_REPORT ∈ name ∨
    CMD_CYCLE_START ∈ name ∨ CMD_FEED_HOLD ∈ name)

/-!  ## Helper lemmas -/

theorem mem_filetypes_length {l : List Char} (h : l ∈ filetypes) : l.length ≤ 7 := by
  fin_cases h <;> decide

theorem file_close_handle (f : FileT) : (file_close f).handle = none := by
  cases h : f.handle <;> simp [file_close, h]

theorem file_close_fs (f : FileT) : (file_close f).fs = f.fs := by
  cases h : f.handle <;> simp [file_close, h]

theorem file_close_line (f : FileT) : (file_close f).line = f.line := by
  cases h : f.handle <;> simp [file_close, h]

theorem file_open_some {w : World} {p : List Char} {content : List Nat} (f : FileT)
    (ho : w.fileData p = some content) :
    file_open w f p =
      { f with handle := some content, size := content.length,
               pos := 0, line := 0, eol := 0 } := by
  unfold file_open
  rw [ho]
  split <;> simp [file_close]
  split <;> rfl

/-!  ## Claim theorems -/

/-- C7: filename classification is a pure function of the candidate name and
the is-regular-file flag.  A regular file is `Filename_Filtered` exactly when
its extension (compared case-insensitively, after the last dot) is not in the
admission list; with an admissible extension the name is `Filename_Invalid`
when it contains a space or a reserved real-time byte and `Filename_Valid`
otherwise; a directory is never `Filename_Filtered` and is `Filename_Valid`
unless it contains a forbidden character. -/
theorem allowed_classification (name : List Char) :
    (allowed name true = .Filename_Filtered ↔ hasAdmissibleExt name = false) ∧
    (hasAdmissibleExt name = true →
      allowed name true =
        if hasBadChar name then .Filename_Invalid else .Filename_Valid) ∧
    (allowed name false ≠ .Filename_Filtered) ∧
    (allowed name false =
      if hasBadChar name then .Filename_Invalid else .Filename_Valid) := by
  have hdir : allowed name false =
      if hasBadChar name then .Filename_Invalid else .Filename_Valid := by
    unfold allowed hasBadChar
    simp only [if_neg (Bool.false_ne_true), Bool.false_eq_true, if_false, if_pos rfl]
    split <;> split <;> simp_all
  refine ⟨?_, ?_, ?_, hdir⟩
  · unfold allowed hasAdmissibleExt
    cases h : afterLastDot name with
    | none => simp
    | some ext =>
      by_cases hlen : ext.length > 7
      · have hnm : ¬ ext.map LCAPS ∈ filetypes := by
          intro hm
          have := mem_filetypes_length hm
          simp at this
          omega
        simp [hlen, hnm]
      · by_cases hm : ext.map LCAPS ∈ filetypes
        · simp [hlen, hm]
          split <;> simp
        · simp [hlen, hm]
  · intro hadm
    unfold hasAdmissibleExt at hadm
    unfold allowed hasBadChar
    cases h : afterLastDot name with
    | none => rw [h] at hadm; simp at hadm
    | some ext =>
      rw [h] at hadm
      simp only [decide_eq_true_eq] at hadm
      have hlen : ¬ ext.length > 7 := by
        have := mem_filetypes_length hadm
        simp at this ⊢
        omega
      simp only [h, hlen, if_false, hadm, if_pos rfl, if_true]
      split <;> simp_all
  · rw [hdir]; split <;> simp

/-- C7 witness: `part.ngc` has an admissible extension, no forbidden
character, and classifies `Filename_Valid`. -/
theorem allowed_classification_witness :
    hasAdmissibleExt ['p','a','r','t','.','n','g','c'] = true ∧
    allowed ['p','a','r','t','.','n','g','c'] true =
      if hasBadChar ['p','a','r','t','.','n','g','c'] then .Filename_Invalid
      else .Filename_Valid :=
  ⟨by decide, (allowed_classification ['p','a','r','t','.','n','g','c']).2.1 (by decide)⟩

/-- C10: a regular file with no dot in its name, or with more than 7 bytes
after the last dot, is `Filename_Filtered` whatever characters it contains. -/
theorem allowed_filtered_without_short_extension (name : List Char)
    (h : afterLastDot name = none ∨
      ∃ ext, afterLastDot name = some ext ∧ ext.length > 7) :
    allowed name true = .Filename_Filtered := by
  unfold allowed
  rcases h with h | ⟨ext, h, hlen⟩
  · simp [h]
  · have hl : ext.length > 7 := hlen
    simp [h, hl]

/-- C10 witness: a name with a space and no dot, and a name with reserved
bytes and an 8-byte extension, are both filtered. -/
theorem allowed_filtered_without_short_extension_witness :
    afterLastDot ['b','a','d',' '] = none ∧
    allowed ['b','a','d',' '] true = .Filename_Filtered ∧
    allowed ['!','?','.','a','b','c','d','e','f','g','h'] true = .Filename_Filtered :=
  ⟨by decide,
   allowed_filtered_without_short_extension ['b','a','d',' '] (Or.inl (by decide)),
   allowed_filtered_without_short_extension ['!','?','.','a','b','c','d','e','f','g','h']
     (Or.inr ⟨['a','b','c','d','e','f','g','h'], by decide, by decide⟩)⟩

/-- C3: while the trapping status hook is installed, any non-success status
makes it emit the error report carrying the numeric status code and the
current line number, close the file session, restore the saved channel set
into `hal.stream`, point the hooks back at the defaults and clear the
console-input block; a success status changes nothing and emits nothing. -/
theorem trap_status_error_terminates (s : SdState) (c : StatusCode) :
    (c ≠ Status_OK →
      trap_status_report s c = (sdcard_end_job s, [Event.errorAtLine c s.file.line]) ∧
      (trap_status_report s c).1.file.handle = none ∧
      (trap_status_report s c).1.stream = s.savedStream ∧
      (trap_status_report s c).1.statusMessage = .reportStatusMessage ∧
      (trap_status_report s c).1.feedbackMessage = .reportFeedbackMessage ∧
      (trap_status_report s c).1.blockInputStream = false) ∧
    (c = Status_OK → trap_status_report s c = (s, [])) := by
  constructor
  · intro h
    simp [trap_status_report, h, sdcard_end_job, file_close_handle]
  · intro h
    simp [trap_status_report, h]

/-- C3 witness: a line-2 error (`Status_other 33`) at line 2 terminates the
job and reports code and line; `Status_OK` is a no-op. -/
theorem trap_status_error_terminates_witness :
    ((StatusCode.Status_other 33) ≠ Status_OK ∧
      trap_status_report (exampleStream [97, 10]) (StatusCode.Status_other 33) =
        (sdcard_end_job (exampleStream [97, 10]),
         [Event.errorAtLine (StatusCode.Status_other 33) (exampleStream [97, 10]).file.line])) ∧
    trap_status_report (exampleStream [97, 10]) Status_OK = (exampleStream [97, 10], []) :=
  ⟨⟨by decide,
    ((trap_status_error_terminates (exampleStream [97, 10]) (StatusCode.Status_other 33)).1
      (by decide)).1⟩,
   (trap_status_error_terminates (exampleStream [97, 10]) Status_OK).2 rfl⟩

/-- C6: dispatching the run sub-command while `sys.state` is not idle returns
`Status_SystemGClock` and leaves the whole module state untouched: no file
session is opened and the channel set, hooks and console-input block are
unchanged. -/
theorem run_while_busy_noop (w : World) (s : SdState) (path : List Char)
    (h : s.sysState ≠ STATE_IDLE) :
    sdcard_parse w s (['$', 'F', '='] ++ path) = (s, Status_SystemGClock, []) := by
  simp [sdcard_parse, List.getD_cons_succ, List.getD_cons_zero, h]

/-- C6 witness: the run command during a cycle fails with the system-lock
status and no side effect. -/
theorem run_while_busy_noop_witness :
    ({ exampleIdle with sysState := STATE_CYCLE }.sysState ≠ STATE_IDLE) ∧
    sdcard_parse (exampleWorld [97]) { exampleIdle with sysState := STATE_CYCLE }
        (['$', 'F', '='] ++ ['f']) =
      ({ exampleIdle with sysState := STATE_CYCLE }, Status_SystemGClock, []) :=
  ⟨by decide,
   run_while_busy_noop (exampleWorld [97]) { exampleIdle with sysState := STATE_CYCLE }
     ['f'] (by decide)⟩

/-- C9: entering suspension clears the console-input block and reinstalls the
saved serial reader and the default status hook; resuming sets the block again
and reinstalls the SD reader and the trapping hook — so after either toggle
the block flag is set exactly when the SD reader is the installed reader. -/
theorem suspend_toggles_block_flag (s : SdState)
    (hsaved : s.savedStream.read ≠ .sdcardRead) :
    ((sdcard_suspend s true).blockInputStream = false ∧
      (sdcard_suspend s true).stream.read = s.savedStream.read ∧
      (sdcard_suspend s true).statusMessage = .reportStatusMessage) ∧
    ((sdcard_suspend s false).blockInputStream = true ∧
      (sdcard_suspend s false).stream.read = .sdcardRead ∧
      (sdcard_suspend s false).statusMessage = .trapStatusReport) ∧
    ((sdcard_suspend s true).blockInputStream = true ↔
      (sdcard_suspend s true).stream.read = .sdcardRead) ∧
    ((sdcard_suspend s false).blockInputStream = true ↔
      (sdcard_suspend s false).stream.read = .sdcardRead) := by
  refine ⟨⟨rfl, rfl, rfl⟩, ⟨rfl, rfl, rfl⟩, ?_, ?_⟩
  · simp [sdcard_suspend, hsaved]
  · simp [sdcard_suspend]

/-- C9 witness: suspend/resume on a concrete streaming job. -/
theorem suspend_toggles_block_flag_witness :
    ((exampleStream [97]).savedStream.read ≠ .sdcardRead) ∧
    (sdcard_suspend (exampleStream [97]) true).blockInputStream = false ∧
    (sdcard_suspend (exampleStream [97]) false).blockInputStream = true :=
  ⟨by decide,
   ((suspend_toggles_block_flag (exampleStream [97]) (by decide)).1).1,
   ((suspend_toggles_block_flag (exampleStream [97]) (by decide)).2.1).1⟩

/-- C8 counterexample: streaming a zero-byte file, the status-report figure is
the unguarded division's undefined value, not the numeral 0 the claim
promises. -/
theorem sd_progress_zero_size_cex :
    (exampleStream []).file.size = 0 ∧
    sdcard_report (exampleStream []) = none ∧
    ¬ sdcard_report (exampleStream []) = some 0 := by
  have h : (exampleStream []).file.size = 0 := by decide
  have hp : (exampleStream []).file.pos = 0 := by decide
  refine ⟨h, ?_, ?_⟩ <;> simp [sdcard_report, floatDiv, h, hp]

/-- C8 (amended): the streamed-progress figure is `pos / size` scaled to a
percent, and lies in `[0, 100]` whenever `pos ≤ size`; but when the size is
zero the code still performs the float division, so the figure is the
undefined quotient (NaN), not 0. -/
theorem sd_progress_spec (s : SdState) :
    (s.file.size = 0 → sdcard_report s = none) ∧
    (s.file.size ≠ 0 →
      sdcard_report s = some ((s.file.pos : ℚ) / (s.file.size : ℚ) * 100) ∧
      (s.file.pos ≤ s.file.size →
        0 ≤ (s.file.pos : ℚ) / (s.file.size : ℚ) * 100 ∧
        (s.file.pos : ℚ) / (s.file.size : ℚ) * 100 ≤ 100)) := by
  constructor
  · intro h
    simp [sdcard_report, floatDiv, h]
  · intro h
    have hz : ((s.file.size : ℚ)) ≠ 0 := by exact_mod_cast h
    have hpos : (0 : ℚ) < (s.file.size : ℚ) := by
      have := Nat.pos_of_ne_zero h
      exact_mod_cast this
    refine ⟨by simp [sdcard_report, floatDiv, hz], ?_⟩
    intro hle
    have hle' : (s.file.pos : ℚ) ≤ (s.file.size : ℚ) := by exact_mod_cast hle
    constructor
    · have : (0 : ℚ) ≤ (s.file.pos : ℚ) / (s.file.size : ℚ) :=
        div_nonneg (by positivity) (le_of_lt hpos)
      nlinarith
    · have h1 : (s.file.pos : ℚ) / (s.file.size : ℚ) ≤ 1 :=
        (div_le_one hpos).mpr hle'
      nlinarith

/-- C8 amended-claim witness: a 2-byte file at offset 0 reports 0 percent. -/
theorem sd_progress_spec_witness :
    (exampleStream [97, 10]).file.size ≠ 0 ∧
    sdcard_report (exampleStream [97, 10]) =
      some (((exampleStream [97, 10]).file.pos : ℚ) /
        ((exampleStream [97, 10]).file.size : ℚ) * 100) :=
  ⟨by decide, ((sd_progress_spec (exampleStream [97, 10])).2 (by decide)).1⟩

/-- C5, evaluated at the failing input: streaming the properly terminated file
`"a\n"`, the end-of-line run is 1 with the whole file consumed, yet the read
that hits end-of-file returns a synthesized line-feed instead of the end
sentinel — `file_read` resets the run to zero on the failed read before
`sdcard_read` tests it — and only the read after that, finding no open handle,
returns the sentinel. -/
theorem synthesized_newline_despite_terminator :
    (driveReads 2 (exampleStream [97, 10])).file.eol = 1 ∧
    (driveReads 2 (exampleStream [97, 10])).file.handle = some [] ∧
    (sdcard_read (driveReads 2 (exampleStream [97, 10]))).2 = 10 ∧
    ¬ (sdcard_read (driveReads 2 (exampleStream [97, 10]))).2 = -1 ∧
    (sdcard_read (driveReads 2 (exampleStream [97, 10]))).1.file.handle = none ∧
    (sdcard_read (driveReads 3 (exampleStream [97, 10]))).2 = -1 := by
  decide

theorem byteToInt_ne_neg_one {b : Nat} (hb : b < 255) : byteToInt b ≠ -1 := by
  unfold byteToInt; split <;> omega

theorem byteToInt_term_iff {b : Nat} (hb : b < 255) :
    (byteToInt b = 13 ∨ byteToInt b = 10) ↔ (b = 13 ∨ b = 10) := by
  unfold byteToInt; split <;> omega

/-- With an open handle and a byte left, a read while the system is idle
consumes the byte. -/
theorem sdcard_read_cons (s : SdState) (b : Nat) (rest : List Nat)
    (hh : s.file.handle = some (b :: rest)) (hb : b < 255)
    (hs : s.sysState = STATE_IDLE) :
    sdcard_read s = ({ s with file := consumeByte s.file b rest }, byteToInt b) := by
  have hne := byteToInt_ne_neg_one hb
  have hiff := byteToInt_term_iff hb
  by_cases he : s.file.eol = 1 <;>
    by_cases hc : b = 13 ∨ b = 10 <;>
      simp_all [sdcard_read, file_read, consumeByte, lineBump, STATE_IDLE]

/-- With an open handle but the content exhausted, a read while the system is
idle does the line accounting, closes the session and returns the synthesized
line-feed. -/
theorem sdcard_read_nil (s : SdState)
    (hh : s.file.handle = some []) (hs : s.sysState = STATE_IDLE) :
    sdcard_read s = ({ s with file := closeAtEof s.file }, 10) := by
  by_cases he : s.file.eol = 1 <;>
    simp_all [sdcard_read, file_read, file_close, closeAtEof, lineBump, STATE_IDLE]

/-- With no open handle and the system idle, a read ends the job. -/
theorem sdcard_read_none (s : SdState)
    (hh : s.file.handle = none) (hs : s.sysState = STATE_IDLE) :
    sdcard_read s = (sdcard_end_job { s with file := lineBump s.file }, -1) := by
  by_cases he : s.file.eol = 1 <;> simp_all [sdcard_read, lineBump, STATE_IDLE]

/-- While the handle is open, a read only changes the file session: the
channel set, save slot, hooks and input block are untouched. -/
theorem sdcard_read_keeps (s : SdState) (hh : s.file.handle.isSome) :
    (sdcard_read s).1.stream = s.stream ∧
    (sdcard_read s).1.savedStream = s.savedStream ∧
    (sdcard_read s).1.statusMessage = s.statusMessage ∧
    (sdcard_read s).1.feedbackMessage = s.feedbackMessage ∧
    (sdcard_read s).1.blockInputStream = s.blockInputStream ∧
    (sdcard_read s).1.sysState = s.sysState := by
  unfold sdcard_read
  have hf0 : (if s.file.eol = 1 then { s.file with line := s.file.line + 1 }
      else s.file).handle.isSome = true := by
    split <;> simpa using hh
  simp only [hf0, if_true]
  refine ⟨?_, ?_, ?_, ?_, ?_, ?_⟩ <;> (repeat' split) <;> rfl

/-- C2: on the end-of-file path the job ends exactly when a read request finds
the handle already closed while the system is idle.  A read with an open
handle never touches the channel set, the hooks or the input block; a read
that hits the end sentinel with the content exhausted (while reading is
permitted) closes the session; a read with no open handle and an idle system
is precisely the end-of-job transition (after the line accounting); and with
no handle but a non-idle system nothing ends — only the line accounting runs
and the end sentinel is returned. -/
theorem eof_end_conditions (s : SdState) :
    (s.file.handle.isSome →
      (sdcard_read s).1.stream = s.stream ∧
      (sdcard_read s).1.savedStream = s.savedStream ∧
      (sdcard_read s).1.statusMessage = s.statusMessage ∧
      (sdcard_read s).1.feedbackMessage = s.feedbackMessage ∧
      (sdcard_read s).1.blockInputStream = s.blockInputStream) ∧
    (s.file.handle = some [] →
      (s.sysState = STATE_IDLE ∨ s.sysState &&& (STATE_CYCLE ||| STATE_HOLD) ≠ 0) →
      (sdcard_read s).1.file.handle = none) ∧
    (s.file.handle = none → s.sysState = STATE_IDLE →
      (sdcard_read s).1 = sdcard_end_job { s with file := lineBump s.file }) ∧
    (s.file.handle = none → s.sysState ≠ STATE_IDLE →
      (sdcard_read s).1 = { s with file := lineBump s.file } ∧
      (sdcard_read s).2 = -1) := by
  refine ⟨?_, ?_, ?_, ?_⟩
  · intro hh
    have h := sdcard_read_keeps s hh
    exact ⟨h.1, h.2.1, h.2.2.1, h.2.2.2.1, h.2.2.2.2.1⟩
  · intro hh hguard
    by_cases he : s.file.eol = 1 <;>
      simp_all [sdcard_read, file_read, file_close]
  · intro hh hs
    rw [sdcard_read_none s hh hs]
  · intro hh hs
    unfold sdcard_read lineBump
    by_cases he : s.file.eol = 1 <;> simp_all [STATE_IDLE]

/-- C2 witness: after fully consuming `"a\n"` plus the synthesized terminator,
the next read (no handle, idle) is the end-of-job transition; one step
earlier, the read with the content exhausted closed the session. -/
theorem eof_end_conditions_witness :
    ((driveReads 2 (exampleStream [97, 10])).file.handle = some [] ∧
      (sdcard_read (driveReads 2 (exampleStream [97, 10]))).1.file.handle = none) ∧
    ((driveReads 3 (exampleStream [97, 10])).file.handle = none ∧
      (driveReads 3 (exampleStream [97, 10])).sysState = STATE_IDLE ∧
      (sdcard_read (driveReads 3 (exampleStream [97, 10]))).1 =
        sdcard_end_job { (driveReads 3 (exampleStream [97, 10])) with
          file := lineBump (driveReads 3 (exampleStream [97, 10])).file }) :=
  ⟨⟨by decide,
    (eof_end_conditions (driveReads 2 (exampleStream [97, 10]))).2.1 (by decide)
      (Or.inl (by decide))⟩,
   ⟨by decide, by decide,
    (eof_end_conditions (driveReads 3 (exampleStream [97, 10]))).2.2.1 (by decide)
      (by decide)⟩⟩

theorem file_read_line_eq (f : FileT) : (file_read f).1.line = f.line := by
  unfold file_read
  rcases h : f.handle with _ | ⟨_ | ⟨b, rest⟩⟩ <;> simp [h] <;> split <;> rfl

/-- The line counter is bumped by any read request arriving with an
end-of-line run of exactly 1, on every branch of `sdcard_read`. -/
theorem sdcard_read_line_bump (t : SdState) (het : t.file.eol = 1) :
    (sdcard_read t).1.file.line = t.file.line + 1 := by
  unfold sdcard_read
  rw [if_pos het]
  by_cases hh : ({ t.file with line := t.file.line + 1 } : FileT).handle.isSome = true
  · rw [if_pos hh]
    rcases hp : (if t.sysState = STATE_IDLE ∨ t.sysState &&& (STATE_CYCLE ||| STATE_HOLD) ≠ 0
        then file_read { t.file with line := t.file.line + 1 }
        else ({ t.file with line := t.file.line + 1 }, -1)) with ⟨f1, c⟩
    have hline : f1.line = t.file.line + 1 := by
      have h2 := congrArg (fun q => q.1.line) hp
      simp only at h2
      rw [← h2]
      split
      · rw [file_read_line_eq]
      · rfl
    by_cases hc : c = -1 <;> simp [hc, file_close_line, hline]
  · rw [if_neg hh]
    split <;> simp [sdcard_end_job, file_close_line]

/-- Streaming the remaining content to the end of the job (one read per byte,
one end-of-file read, one end-of-job read) leaves the line counter at the
value of the line-counting recurrence, with the session closed and the saved
channel set restored into `hal.stream`. -/
theorem driveReads_spec (rem : List Nat) :
    ∀ s : SdState, s.file.handle = some rem → (∀ b ∈ rem, b < 255) →
      s.sysState = STATE_IDLE →
      (driveReads (rem.length + 2) s).file.line = lineCount rem s.file.eol s.file.line ∧
      (driveReads (rem.length + 2) s).file.handle = none ∧
      (driveReads (rem.length + 2) s).stream = s.savedStream := by
  induction rem with
  | nil =>
    intro s hh hb hs
    have h1 := sdcard_read_nil s hh hs
    have h2 := sdcard_read_none { s with file := closeAtEof s.file }
      (by simp [closeAtEof]) hs
    have hdr : driveReads (List.length ([] : List Nat) + 2) s
        = (sdcard_read (sdcard_read s).1).1 := rfl
    rw [hdr]
    simp only [h1]
    simp only [h2]
    unfold sdcard_end_job closeAtEof lineBump lineCount
    by_cases he : s.file.eol = 1 <;> simp [he, file_close]
  | cons b rest ih =>
    intro s hh hb hs
    have hb0 : b < 255 := hb b (by simp)
    have h1 := sdcard_read_cons s b rest hh hb0 hs
    have hlen : (b :: rest).length + 2 = (rest.length + 2) + 1 := by
      rw [List.length_cons]
    rw [hlen]
    have hdr : driveReads ((rest.length + 2) + 1) s
        = driveReads (rest.length + 2) (sdcard_read s).1 := rfl
    rw [hdr]
    simp only [h1]
    have ihx := ih { s with file := consumeByte s.file b rest }
      (by simp [consumeByte]) (fun x hx => hb x (by simp [hx])) hs
    refine ⟨?_, ihx.2.1, ihx.2.2⟩
    rw [ihx.1]
    unfold consumeByte lineBump
    by_cases he : s.file.eol = 1 <;>
      by_cases hc : b = 13 ∨ b = 10 <;>
        simp [he, hc, lineCount]


/-- Consuming a run of non-terminator bytes from a zero run leaves the run
and count unchanged. -/
theorem lineCount_nonterm (l : List Nat) :
    ∀ rest acc, (∀ b ∈ l, b ≠ 13 ∧ b ≠ 10) →
      lineCount (l ++ rest) 0 acc = lineCount rest 0 acc := by
  induction l with
  | nil => intro rest acc _; rfl
  | cons b l ih =>
    intro rest acc hl
    have hb := hl b (by simp)
    simp only [List.cons_append, lineCount, hb.1, hb.2, or_self, if_false]
    simp only [if_neg (by omega : ¬(0 : Nat) = 1)]
    exact ih rest acc (fun x hx => hl x (by simp [hx]))

/-- Consuming one properly terminated nonempty line: the count is bumped when
the entry run was 1, and the run ends at 1. -/
theorem lineCount_line (l rest : List Nat) (e acc : Nat) (hl : goodLine l) :
    lineCount (l ++ 10 :: rest) e acc =
      lineCount rest 1 (if e = 1 then acc + 1 else acc) := by
  obtain ⟨hne, hb⟩ := hl
  cases l with
  | nil => exact absurd rfl hne
  | cons b l =>
    have hbb := hb b (by simp)
    simp only [List.cons_append, lineCount, hbb.2.1, hbb.2.2, or_self, if_false]
    have h2 := lineCount_nonterm l (10 :: rest) (if e = 1 then acc + 1 else acc)
      (fun x hx => (hb x (by simp [hx])).2)
    have h3 : lineCount (10 :: rest) 0 (if e = 1 then acc + 1 else acc)
        = lineCount rest 1 (if e = 1 then acc + 1 else acc) := by
      simp [lineCount]
    exact h2.trans h3

/-- Consuming a final unterminated nonempty line (or nothing): the count is
bumped exactly when the entry run was 1. -/
theorem lineCount_last (l : List Nat) (e acc : Nat)
    (hl : l = [] ∨ goodLine l) :
    lineCount l e acc = if e = 1 then acc + 1 else acc := by
  rcases hl with h | ⟨hne, hb⟩
  · subst h; rfl
  · cases l with
    | nil => exact absurd rfl hne
    | cons b l =>
      have hbb := hb b (by simp)
      simp only [lineCount, hbb.2.1, hbb.2.2, or_self, if_false]
      have h2 := lineCount_nonterm l [] (if e = 1 then acc + 1 else acc)
        (fun x hx => (hb x (by simp [hx])).2)
      have h0 : l ++ ([] : List Nat) = l := by simp
      rw [h0] at h2
      exact h2

/-- The line-counting recurrence over a whole file: one count per properly
terminated line, a final unterminated line (if any) uncounted. -/
theorem lineCount_mkFile (lines : List (List Nat)) :
    ∀ (last : List Nat), (∀ l ∈ lines, goodLine l) → (last = [] ∨ goodLine last) →
      ∀ e acc, e = 0 ∨ e = 1 →
        lineCount (mkFile lines ++ last) e acc =
          (if e = 1 then acc + 1 else acc) + lines.length := by
  induction lines with
  | nil =>
    intro last _ hlast e acc _
    simpa [mkFile] using lineCount_last last e acc hlast
  | cons l ls ih =>
    intro last hl hlast e acc he
    have hrw : mkFile (l :: ls) ++ last = l ++ 10 :: (mkFile ls ++ last) := by
      simp [mkFile]
    rw [hrw, lineCount_line l (mkFile ls ++ last) e acc (hl l (by simp))]
    rw [ih last (fun x hx => hl x (by simp [hx])) hlast 1 _ (Or.inr rfl)]
    simp only [List.length_cons]
    by_cases he1 : e = 1 <;> simp [he1] <;> omega

/-- Every byte of a well-formed file (line bodies plus line-feed terminators)
is below 255. -/
theorem mkFile_bytes (lines : List (List Nat)) :
    ∀ (last : List Nat), (∀ l ∈ lines, goodLine l) → (last = [] ∨ goodLine last) →
      ∀ b ∈ mkFile lines ++ last, b < 255 := by
  induction lines with
  | nil =>
    intro last _ hlast b hbm
    rcases hlast with h | ⟨_, hb⟩
    · subst h; simp [mkFile] at hbm
    · simp [mkFile] at hbm
      exact (hb b hbm).1
  | cons l ls ih =>
    intro last hl hlast b hbm
    simp only [mkFile, List.cons_append, List.mem_append, List.mem_cons] at hbm
    rcases hbm with (hbm | hbm | hbm) | hbm
    · exact ((hl l (by simp)).2 b hbm).1
    · omega
    · exact ih last (fun x hx => hl x (by simp [hx])) hlast b
        (List.mem_append.mpr (Or.inl hbm))
    · exact ih last (fun x hx => hl x (by simp [hx])) hlast b
        (List.mem_append.mpr (Or.inr hbm))


/-- C4 counterexample: streaming the single-line file `"a"` whose final line
lacks a terminator to the end of the job leaves `lineNumber` at 0, not at the
1 the claim promises — the synthesized terminator is not counted. -/
theorem lineNumber_unterminated_cex :
    (driveReads 3 (exampleStream [97])).file.handle = none ∧
    ¬ jobActive (driveReads 3 (exampleStream [97])) ∧
    (driveReads 3 (exampleStream [97])).file.line = 0 ∧
    ¬ (driveReads 3 (exampleStream [97])).file.line = 1 := by
  decide

/-- C4 (amended): after streaming a file of `N` properly terminated nonempty
lines to completion, `lineNumber` equals `N`; when a final unterminated line
follows them, `lineNumber` still equals only the number of terminated lines —
the final line is not counted, because the synthesized terminator bypasses
the end-of-line-run update.  The increment itself is performed at the top of
a read request exactly when the end-of-line run equals 1. -/
theorem lineNumber_counts_terminated_lines (s : SdState)
    (lines : List (List Nat)) (last : List Nat)
    (hl : ∀ l ∈ lines, goodLine l) (hlast : last = [] ∨ goodLine last)
    (hh : s.file.handle = some (mkFile lines ++ last))
    (he : s.file.eol = 0) (hline : s.file.line = 0)
    (hs : s.sysState = STATE_IDLE) :
    (driveReads ((mkFile lines ++ last).length + 2) s).file.line = lines.length ∧
    (driveReads ((mkFile lines ++ last).length + 2) s).file.handle = none ∧
    (∀ t : SdState, t.file.eol = 1 →
      (sdcard_read t).1.file.line = t.file.line + 1) := by
  have hd := driveReads_spec (mkFile lines ++ last) s hh
    (mkFile_bytes lines last hl hlast) hs
  have hc := lineCount_mkFile lines last hl hlast s.file.eol s.file.line
    (Or.inl he)
  refine ⟨?_, hd.2.1, fun t het => sdcard_read_line_bump t het⟩
  rw [hd.1, hc, he, hline]
  simp

/-- C4 witness: the two-line file `"a\nb\n"` counts 2 lines; with the final
terminator missing (`"a\nb"`) only 1; and a read arriving at run 1
increments the counter. -/
theorem lineNumber_counts_terminated_lines_witness :
    (driveReads ((mkFile [[97], [98]] ++ []).length + 2)
        (exampleStream (mkFile [[97], [98]] ++ []))).file.line = 2 ∧
    (driveReads ((mkFile [[97]] ++ [98]).length + 2)
        (exampleStream (mkFile [[97]] ++ [98]))).file.line = 1 ∧
    (sdcard_read (driveReads 2 (exampleStream [97, 10]))).1.file.line =
      (driveReads 2 (exampleStream [97, 10])).file.line + 1 :=
  ⟨(lineNumber_counts_terminated_lines (exampleStream (mkFile [[97], [98]] ++ []))
      [[97], [98]] [] (by decide) (Or.inl rfl) (by decide) (by decide) (by decide)
      (by decide)).1,
   (lineNumber_counts_terminated_lines (exampleStream (mkFile [[97]] ++ [98]))
      [[97]] [98] (by decide) (Or.inr (by decide)) (by decide) (by decide) (by decide)
      (by decide)).1,
   (lineNumber_counts_terminated_lines (exampleStream (mkFile [[97], [98]] ++ []))
      [[97], [98]] [] (by decide) (Or.inl rfl) (by decide) (by decide) (by decide)
      (by decide)).2.2 (driveReads 2 (exampleStream [97, 10])) (by decide)⟩

/-- A read with no handle while the system is not idle only performs the line
accounting. -/
theorem sdcard_read_none_busy (s : SdState) (hh : s.file.handle = none)
    (hs : s.sysState ≠ STATE_IDLE) :
    (sdcard_read s).1 = { s with file := lineBump s.file } := by
  unfold sdcard_read lineBump
  by_cases he : s.file.eol = 1 <;> simp_all

/-- `sdcard_end_job` on any state whose save slot holds a console
configuration lands exactly in that configuration, with the SD stream type
gone. -/
theorem end_job_restores (s0 s : SdState) (hc : consoleState s0)
    (hsave : s.savedStream = s0.stream) :
    restoredTo s0 (sdcard_end_job s) ∧
    (sdcard_end_job s).stream.type ≠ .sdcardType := by
  obtain ⟨ht, _, _, hst, hfb⟩ := hc
  refine ⟨⟨?_, ?_, ?_, rfl, ?_⟩, ?_⟩
  · simp [sdcard_end_job, hsave]
  · simp [sdcard_end_job, hst]
  · simp [sdcard_end_job, hfb]
  · simp [sdcard_end_job, file_close_handle]
  · simpa [sdcard_end_job, hsave] using ht

/-- One `sdcard_read` from a state with the SD set installed either stays
installed with the save slot intact, or ends the job restored. -/
theorem sdcard_read_inv (s0 s : SdState) (hc : consoleState s0)
    (hsave : s.savedStream = s0.stream) (hact : s.stream.type = .sdcardType) :
    ((sdcard_read s).1.stream.type = .sdcardType ∧
      (sdcard_read s).1.savedStream = s0.stream) ∨
    restoredTo s0 (sdcard_read s).1 := by
  cases hh : s.file.handle with
  | some l =>
    have hk := sdcard_read_keeps s (by simp [hh])
    exact Or.inl ⟨by rw [hk.1]; exact hact, by rw [hk.2.1]; exact hsave⟩
  | none =>
    by_cases hs : s.sysState = STATE_IDLE
    · right
      rw [sdcard_read_none s hh hs]
      exact (end_job_restores s0 { s with file := lineBump s.file } hc hsave).1
    · left
      rw [sdcard_read_none_busy s hh hs]
      exact ⟨hact, hsave⟩

/-- The restored console configuration is stable under every further
environment step: none of this module's functions is installed any more. -/
theorem restored_stable (s0 s : SdState) (hc : consoleState s0)
    (hr : restoredTo s0 s) (op : MidOp) :
    restoredTo s0 (applyOp s op) := by
  obtain ⟨hstr, hst, hfb, hbl, hh⟩ := hr
  obtain ⟨ht0, hr0, hsp0, hst0, hfb0⟩ := hc
  cases op with
  | readChar =>
    have hx : s.stream.read = s0.stream.read := by rw [hstr]
    unfold applyOp dispatchRead
    cases hz : s.stream.read with
    | sdcardRead => rw [hx] at hz; exact absurd hz hr0
    | ext n =>
      simp only [hz]
      exact ⟨hstr, hst, hfb, hbl, hh⟩
  | suspend b =>
    have hx : s.stream.suspendRead = s0.stream.suspendRead := by rw [hstr]
    unfold applyOp dispatchSuspend
    cases hz : s.stream.suspendRead with
    | sdcardSuspend => rw [hx] at hz; exact absurd hz hsp0
    | ext n =>
      simp only [hz]
      exact ⟨hstr, hst, hfb, hbl, hh⟩
  | status c =>
    have hz : s.statusMessage = .reportStatusMessage := by rw [hst, hst0]
    unfold applyOp dispatchStatus
    simp only [hz]
    exact ⟨hstr, hst, hfb, hbl, hh⟩
  | feedback m =>
    have hz : s.feedbackMessage = .reportFeedbackMessage := by rw [hfb, hfb0]
    unfold applyOp dispatchFeedback
    simp only [hz]
    exact ⟨hstr, hst, hfb, hbl, hh⟩
  | reset =>
    have hz : ¬ s.stream.type = .sdcardType := by rw [hstr]; exact ht0
    unfold applyOp sdcard_reset
    simp only [hz, if_false]
    exact ⟨hstr, hst, hfb, hbl, hh⟩
  | setSys n =>
    unfold applyOp
    exact ⟨hstr, hst, hfb, hbl, hh⟩

/-- One environment step from an installed-with-intact-save state either
keeps the job installed with the save intact, or ends it restored; from a
restored state it stays restored. -/
theorem applyOp_preserves (s0 : SdState) (hc : consoleState s0) (op : MidOp)
    (s : SdState)
    (h : (s.stream.type = .sdcardType ∧ s.savedStream = s0.stream) ∨ restoredTo s0 s) :
    ((applyOp s op).stream.type = .sdcardType ∧
      (applyOp s op).savedStream = s0.stream) ∨
    restoredTo s0 (applyOp s op) := by
  rcases h with ⟨hact, hsave⟩ | hrest
  · cases op with
    | readChar =>
      unfold applyOp dispatchRead
      cases hz : s.stream.read with
      | ext n =>
        simp only [hz]
        exact Or.inl ⟨hact, hsave⟩
      | sdcardRead =>
        simp only [hz]
        exact sdcard_read_inv s0 s hc hsave hact
    | suspend b =>
      unfold applyOp dispatchSuspend
      cases hz : s.stream.suspendRead with
      | ext n =>
        simp only [hz]
        exact Or.inl ⟨hact, hsave⟩
      | sdcardSuspend =>
        simp only [hz]
        left
        unfold sdcard_suspend
        cases b <;> simp <;> exact ⟨hact, hsave⟩
    | status c =>
      unfold applyOp dispatchStatus
      cases hz : s.statusMessage with
      | trapStatusReport =>
        simp only [hz]
        unfold trap_status_report
        by_cases hok : c = Status_OK
        · simp only [hok, ne_eq, not_true_eq_false, if_false]
          exact Or.inl ⟨hact, hsave⟩
        · simp only [ne_eq, hok, not_false_eq_true, if_true]
          exact Or.inr (end_job_restores s0 s hc hsave).1
      | reportStatusMessage =>
        simp only [hz]
        exact Or.inl ⟨hact, hsave⟩
      | ext n =>
        simp only [hz]
        exact Or.inl ⟨hact, hsave⟩
    | feedback m =>
      unfold applyOp dispatchFeedback
      cases hz : s.feedbackMessage with
      | trapFeedbackMessage =>
        simp only [hz]
        unfold trap_feedback_message
        by_cases hpe : m = Message_ProgramEnd
        · simp only [hpe, if_pos rfl]
          exact Or.inr (end_job_restores s0 s hc hsave).1
        · simp only [if_neg hpe]
          exact Or.inl ⟨hact, hsave⟩
      | reportFeedbackMessage =>
        simp only [hz]
        exact Or.inl ⟨hact, hsave⟩
      | ext n =>
        simp only [hz]
        exact Or.inl ⟨hact, hsave⟩
    | reset =>
      unfold applyOp sdcard_reset
      simp only [hact, if_pos rfl]
      exact Or.inr (end_job_restores s0 s hc hsave).1
    | setSys n =>
      unfold applyOp
      exact Or.inl ⟨hact, hsave⟩
  · exact Or.inr (restored_stable s0 s hc hrest op)

/-- Invariant over any environment-step sequence. -/
theorem applyOps_preserves (s0 : SdState) (hc : consoleState s0)
    (ops : List MidOp) :
    ∀ s : SdState,
      ((s.stream.type = .sdcardType ∧ s.savedStream = s0.stream) ∨ restoredTo s0 s) →
      (((applyOps s ops).stream.type = .sdcardType ∧
          (applyOps s ops).savedStream = s0.stream) ∨
        restoredTo s0 (applyOps s ops)) := by
  induction ops with
  | nil => intro s h; exact h
  | cons op ops ih =>
    intro s h
    exact ih _ (applyOp_preserves s0 hc op s h)

/-- The run command's successful path: confirm OK through the pre-job hook,
save `hal.stream`, install the SD channel set. -/
theorem sdcard_parse_run (w : World) (s : SdState) (path : List Char)
    (content : List Nat)
    (hi : s.sysState = STATE_IDLE) (ho : w.fileData path = some content)
    (hst : s.statusMessage = .reportStatusMessage) :
    sdcard_parse w s (['$', 'F', '='] ++ path) =
      (installedState s content, Status_OK,
        [Event.statusMsg .reportStatusMessage Status_OK]) := by
  have hopen := @file_open_some w path content s.file ho
  simp [sdcard_parse, List.getD_cons_succ, List.getD_cons_zero,
    List.drop_succ_cons, List.drop_zero, hi, hopen, dispatchStatus, hst,
    installedState]

/-- C1: from an idle console configuration, a successful run command answers
OK and snapshots the active channel set into the single save slot before
installing the storage set; thereafter, under any sequence of environment
steps — reads, suspend/resume toggles in any number and order, status and
feedback events, resets, system-state changes — either the job is still
active with the save slot intact, or the job has ended with the active
channel set equal to exactly the pre-run set (stream bundle and both report
hooks), the console-input block cleared and the handle closed; and once
ended, a further reset trigger is a no-op, so the restore happens exactly
once. -/
theorem run_and_end_restores (w : World) (s0 : SdState) (path : List Char)
    (content : List Nat) (ops : List MidOp)
    (hc : consoleState s0) (hi : s0.sysState = STATE_IDLE)
    (ho : w.fileData path = some content) :
    (sdcard_parse w s0 (['$', 'F', '='] ++ path)).2.1 = Status_OK ∧
    (sdcard_parse w s0 (['$', 'F', '='] ++ path)).1.savedStream = s0.stream ∧
    jobActive (sdcard_parse w s0 (['$', 'F', '='] ++ path)).1 ∧
    (jobActive (applyOps (sdcard_parse w s0 (['$', 'F', '='] ++ path)).1 ops) →
      (applyOps (sdcard_parse w s0 (['$', 'F', '='] ++ path)).1 ops).savedStream
        = s0.stream) ∧
    (¬ jobActive (applyOps (sdcard_parse w s0 (['$', 'F', '='] ++ path)).1 ops) →
      restoredTo s0 (applyOps (sdcard_parse w s0 (['$', 'F', '='] ++ path)).1 ops) ∧
      (sdcard_reset (applyOps (sdcard_parse w s0 (['$', 'F', '='] ++ path)).1 ops)).1
        = applyOps (sdcard_parse w s0 (['$', 'F', '='] ++ path)).1 ops) := by
  have hp := sdcard_parse_run w s0 path content hi ho hc.2.2.2.1
  rw [hp]
  have hmain := applyOps_preserves s0 hc ops (installedState s0 content)
    (Or.inl ⟨rfl, rfl⟩)
  refine ⟨rfl, rfl, rfl, ?_, ?_⟩
  · intro hact
    rcases hmain with ⟨_, hsv⟩ | hrest
    · exact hsv
    · exact absurd (hrest.1 ▸ hact) hc.1
  · intro hnact
    rcases hmain with ⟨hty, _⟩ | hrest
    · exact absurd hty hnact
    · refine ⟨hrest, ?_⟩
      have hz : ¬ (applyOps (installedState s0 content) ops).stream.type
          = .sdcardType := by
        rw [hrest.1]; exact hc.1
      unfold sdcard_reset
      simp only [hz, if_false]

/-- C1 witness: running a one-line file from the concrete idle console state,
then suspending, resuming and reading the job to its end, lands back in
exactly the pre-run console configuration, and a further reset is a no-op. -/
theorem run_and_end_restores_witness :
    consoleState exampleIdle ∧
    ((sdcard_parse (exampleWorld [10]) exampleIdle (['$', 'F', '='] ++ ['f'])).2.1
        = Status_OK ∧
     (sdcard_parse (exampleWorld [10]) exampleIdle (['$', 'F', '='] ++ ['f'])).1.savedStream
        = exampleIdle.stream ∧
     jobActive (sdcard_parse (exampleWorld [10]) exampleIdle (['$', 'F', '='] ++ ['f'])).1 ∧
     (jobActive (applyOps (sdcard_parse (exampleWorld [10]) exampleIdle
          (['$', 'F', '='] ++ ['f'])).1
          [.suspend true, .suspend false, .readChar, .readChar, .readChar]) →
       (applyOps (sdcard_parse (exampleWorld [10]) exampleIdle
          (['$', 'F', '='] ++ ['f'])).1
          [.suspend true, .suspend false, .readChar, .readChar, .readChar]).savedStream
        = exampleIdle.stream) ∧
     (¬ jobActive (applyOps (sdcard_parse (exampleWorld [10]) exampleIdle
          (['$', 'F', '='] ++ ['f'])).1
          [.suspend true, .suspend false, .readChar, .readChar, .readChar]) →
       restoredTo exampleIdle (applyOps (sdcard_parse (exampleWorld [10]) exampleIdle
          (['$', 'F', '='] ++ ['f'])).1
          [.suspend true, .suspend false, .readChar, .readChar, .readChar]) ∧
       (sdcard_reset (applyOps (sdcard_parse (exampleWorld [10]) exampleIdle
          (['$', 'F', '='] ++ ['f'])).1
          [.suspend true, .suspend false, .readChar, .readChar, .readChar])).1
        = applyOps (sdcard_parse (exampleWorld [10]) exampleIdle
          (['$', 'F', '='] ++ ['f'])).1
          [.suspend true, .suspend false, .readChar, .readChar, .readChar])) :=
  ⟨by decide,
   run_and_end_restores (exampleWorld [10]) exampleIdle ['f'] [10]
     [.suspend true, .suspend false, .readChar, .readChar, .readChar]
     (by decide) rfl rfl⟩

end Sdcard
